import Mathlib

/-!
Verification of the Page Object layer of a Playwright test suite for the
DemoBlaze e-commerce demo site.

The page-object methods are shallowly embedded as pure Lean functions over
explicit models of the rendered DOM state:

* a cart table is a `List CartRow`, each row carrying the `textContent` of
  the whole `<tr>` and of its name and price cells (`Option String`, since
  `textContent` may be `null`);
* browser-side text operations (`trim`, `includes`, `parseFloat` after a
  digit-and-dot strip, `findIndex`) are modelled over `List Char` so that
  every definition is executable and kernel-reducible;
* driver waits and `expect` assertions are modelled as `Except DriverError`
  values, where an `error` is a thrown/propagated failure and `ok` is a
  normal return; the one-shot dialog observer's captured text is passed in
  as an explicit argument;
* prices are parsed into `ℚ` (the idealisation of JavaScript numbers on the
  well-formed price strings the claims quantify over), with `Option ℚ`
  modelling NaN propagation (`none` = NaN).
-/

/-! ## JavaScript string primitives, modelled over lists of characters -/

/-- Whitespace as removed by JavaScript's `String.prototype.trim`
(restricted to the ASCII whitespace that can occur in the pages' text). -/
def jsIsWs (c : Char) : Bool := c = ' ' ∨ c = '\t' ∨ c = '\n' ∨ c = '\r'

/-- Trim leading and trailing whitespace from a character list. -/
def jsTrimL (l : List Char) : List Char :=
  ((l.dropWhile jsIsWs).reverse.dropWhile jsIsWs).reverse

/-- Model of JavaScript `s.trim()`. -/
def jsTrim (s : String) : String := ⟨jsTrimL s.toList⟩

/-- Boolean test that `needle` occurs at the head of `hay`. -/
def isPrefixOfB : List Char → List Char → Bool
  | [], _ => true
  | _ :: _, [] => false
  | a :: as, b :: bs => a == b && isPrefixOfB as bs

/-- Boolean test that `needle` occurs contiguously somewhere in `hay`
(recursion over `hay`). -/
def jsIncludesL (needle : List Char) : List Char → Bool
  | [] => needle.isEmpty
  | b :: bs => isPrefixOfB needle (b :: bs) || jsIncludesL needle bs

/-- Model of JavaScript `s.includes(pattern)`: substring containment. -/
def jsIncludes (s pattern : String) : Bool := jsIncludesL pattern.toList s.toList

/-- Substring containment as a proposition: `needle` is a contiguous
segment of `hay`. -/
def ListSegment (needle hay : List Char) : Prop :=
  ∃ pre post, hay = pre ++ needle ++ post

/-- String-level substring containment proposition, the specification-side
meaning of JavaScript `hay.includes(needle)`. -/
def SubstrOf (needle hay : String) : Prop := ListSegment needle.toList hay.toList

theorem isPrefixOfB_iff (needle hay : List Char) :
    isPrefixOfB needle hay = true ↔ ∃ t, hay = needle ++ t := by
  induction needle generalizing hay with
  | nil => simp [isPrefixOfB]
  | cons a as ih =>
    cases hay with
    | nil => simp [isPrefixOfB]
    | cons b bs =>
      simp only [isPrefixOfB, Bool.and_eq_true, beq_iff_eq, ih, List.cons_append,
        List.cons.injEq]
      constructor
      · rintro ⟨rfl, t, rfl⟩
        exact ⟨t, rfl, rfl⟩
      · rintro ⟨t, rfl, rfl⟩
        exact ⟨rfl, t, rfl⟩

theorem jsIncludesL_iff (needle hay : List Char) :
    jsIncludesL needle hay = true ↔ ListSegment needle hay := by
  induction hay with
  | nil =>
    simp only [jsIncludesL, List.isEmpty_iff, ListSegment]
    constructor
    · rintro rfl
      exact ⟨[], [], rfl⟩
    · rintro ⟨pre, post, h⟩
      cases pre with
      | nil => exact (List.append_eq_nil.mp (by simpa using h.symm)).1
      | cons x xs => simp at h
  | cons b bs ih =>
    simp only [jsIncludesL, Bool.or_eq_true, isPrefixOfB_iff, ih, ListSegment]
    constructor
    · rintro (⟨t, ht⟩ | ⟨pre, post, hp⟩)
      · exact ⟨[], t, by simpa using ht⟩
      · exact ⟨b :: pre, post, by simp [hp]⟩
    · rintro ⟨pre, post, hp⟩
      cases pre with
      | nil => exact Or.inl ⟨post, by simpa using hp⟩
      | cons x xs =>
        right
        rcases List.cons.injEq .. ▸ hp with ⟨rfl, htail⟩
        exact ⟨xs, post, htail⟩

theorem jsIncludes_iff (s pattern : String) :
    jsIncludes s pattern = true ↔ SubstrOf pattern s :=
  jsIncludesL_iff pattern.toList s.toList

/-! ## Driver-level outcomes

An `Except DriverError α` models a page-object method call: `.error` is a
thrown failure (a Playwright `expect` assertion or wait that timed out, or
an explicitly thrown `Error`), `.ok` is a normal return. -/

/-- Failures a page-object method can propagate. -/
inductive DriverError where
  | timeout : DriverError
  | notFound (itemName : String) : DriverError
deriving DecidableEq

/-- Model of `page.waitForSelector(sel, { timeout })`: succeeds when the
element is present (appears within the timeout), otherwise a timeout error. -/
def waitForSelector (visible : Bool) : Except DriverError Unit :=
  if visible then .ok () else .error .timeout

/-- Model of `expect(locator).toBeVisible()`: an assertion that throws on an
element that never becomes visible. -/
def expectToBeVisible (visible : Bool) : Except DriverError Unit :=
  if visible then .ok () else .error .timeout

/-- Model of `expect(locator).toBeHidden()`. -/
def expectToBeHidden (visible : Bool) : Except DriverError Unit :=
  if visible then .error .timeout else .ok ()

/-! ## Cart data model (`CartPage`) -/

/-- One rendered row of the cart table `#tbodyid tr`: the `textContent` of
the whole row, of its name cell (`td:nth-child(2)`) and of its price cell
(`td:nth-child(3)`). `none` models a `null` `textContent`. -/
structure CartRow where
  text : Option String
  rawName : Option String
  rawPrice : Option String
deriving DecidableEq

/-- A cart line as returned by `getCartItems`: trimmed name and price text. -/
structure CartItem where
  name : String
  price : String
deriving DecidableEq

/-- Embedding of `CartPage.getCartItems`: for each row, read the name and
price cells (`textContent() || ''`, then `.trim()`). -/
def getCartItems (rows : List CartRow) : List CartItem :=
  rows.map fun r => ⟨jsTrim (r.rawName.getD ""), jsTrim (r.rawPrice.getD "")⟩

/-- The `textContent` of the first cart row, as read by
`locator(cartItems).first().textContent()`. -/
def firstRowText : List CartRow → Option String
  | [] => none
  | r :: _ => r.text

/-- JavaScript truth of `!t || t.trim() === ''` for a `textContent` value:
absent, empty, or whitespace-only. -/
def jsTextBlank : Option String → Bool
  | none => true
  | some s => s == "" || jsTrim s == ""

/-- Embedding of `CartPage.getCartItemCount`: the number of rows, except
that no rows count as zero and a single row whose text is blank (the remote
app's placeholder-row quirk) also counts as zero. -/
def getCartItemCount (rows : List CartRow) : Nat :=
  let items := rows.length
  if items == 0 then 0
  else if items == 1 && jsTextBlank (firstRowText rows) then 0
  else items

/-- Item count as the specification for claim C2 words it: the number of
cart rows, except that exactly one row with empty (or whitespace-only, or
absent) text is reported as zero items. -/
def specItemCount (rows : List CartRow) : Nat :=
  if rows.length = 1 ∧ jsTextBlank (firstRowText rows) = true then 0 else rows.length

/-- C2: for every rendered cart state, `itemCount()` returns the number of
cart rows, except that a state of exactly one row whose text is empty or
whitespace-only is reported as zero items; for any other row count `n` the
result is `n`. -/
theorem getCartItemCount_eq_specItemCount (rows : List CartRow) :
    getCartItemCount rows = specItemCount rows := by
  cases rows with
  | nil => rfl
  | cons r t =>
    cases t with
    | nil =>
      by_cases h2 : jsTextBlank r.text = true <;>
        simp [getCartItemCount, specItemCount, firstRowText, h2]
    | cons r2 t2 =>
      simp [getCartItemCount, specItemCount, firstRowText]

/-! ## `CartPage.removeAllItems` (claim C1)

The source loop is

```
let itemCount = await this.getCartItemCount();
while (itemCount > 0) {
  await this.page.locator(this.deleteButtons).first().click();
  await this.page.waitForTimeout(1000);
  itemCount = await this.getCartItemCount();
}
```

with no iteration bound of any kind. The remote application's response to
clicking the first delete affordance is external, so it is a parameter
`del : List CartRow → List CartRow`. The unbounded `while` loop is embedded
with explicit fuel: `none` means the loop is still running after `fuel`
iterations, and the loop terminates if and only if some fuel suffices. -/

/-- Fuel-indexed unfolding of the `removeAllItems` loop: stop as soon as
`getCartItemCount` is zero, otherwise click the first delete affordance
(whose remote effect is `del`) and re-query. -/
def removeAllItemsLoop (del : List CartRow → List CartRow) :
    Nat → List CartRow → Option (List CartRow)
  | 0, rows => if getCartItemCount rows = 0 then some rows else none
  | fuel + 1, rows =>
    if getCartItemCount rows = 0 then some rows
    else removeAllItemsLoop del fuel (del rows)

/-- Termination of the source's unbounded `while` loop: some finite number
of iterations reaches `itemCount() == 0`. -/
def removeAllTerminates (del : List CartRow → List CartRow) (rows : List CartRow) : Prop :=
  ∃ fuel, (removeAllItemsLoop del fuel rows).isSome = true

/-- A one-item cart: the Samsung galaxy s6 row of the demo application. -/
def samsungRow : CartRow :=
  ⟨some "Samsung galaxy s6 360 Delete", some "Samsung galaxy s6", some "360"⟩

/-- A second demo row. -/
def nokiaRow : CartRow :=
  ⟨some "Nokia lumia 1520 820 Delete", some "Nokia lumia 1520", some "820"⟩

/-- A concrete one-row cart. -/
def oneItemCart : List CartRow := [samsungRow]

/-- A concrete two-row cart. -/
def twoItemCart : List CartRow := [samsungRow, nokiaRow]

theorem removeAllItemsLoop_id_stuck (rows : List CartRow)
    (h : getCartItemCount rows ≠ 0) :
    ∀ fuel, removeAllItemsLoop (fun r => r) fuel rows = none := by
  intro fuel
  induction fuel with
  | zero => simp [removeAllItemsLoop, h]
  | succ n ih => simpa [removeAllItemsLoop, h] using ih

/-- C1 counterexample: the removal loop has no maximum-iterations guard.
If an individual deletion silently fails to reduce the row count (the
remote state is unchanged by the click), the loop never terminates, even on
a one-item cart. -/
theorem removeAllItems_no_guard_counterexample :
    ¬ removeAllTerminates (fun r => r) oneItemCart := by
  rintro ⟨fuel, hfuel⟩
  rw [removeAllItemsLoop_id_stuck oneItemCart (by decide) fuel] at hfuel
  simp at hfuel

theorem removeAllItemsLoop_of_le (del : List CartRow → List CartRow)
    (hdel : ∀ rows, 0 < getCartItemCount rows →
      getCartItemCount (del rows) < getCartItemCount rows) :
    ∀ fuel rows, getCartItemCount rows ≤ fuel →
      ∃ r', removeAllItemsLoop del fuel rows = some r' ∧ getCartItemCount r' = 0 := by
  intro fuel
  induction fuel with
  | zero =>
    intro rows hle
    have h0 : getCartItemCount rows = 0 := Nat.le_zero.mp hle
    exact ⟨rows, by simp [removeAllItemsLoop, h0], h0⟩
  | succ n ih =>
    intro rows hle
    by_cases h0 : getCartItemCount rows = 0
    · exact ⟨rows, by simp [removeAllItemsLoop, h0], h0⟩
    · have hpos : 0 < getCartItemCount rows := Nat.pos_of_ne_zero h0
      have hlt := hdel rows hpos
      obtain ⟨r', hr', hz⟩ := ih (del rows) (by omega)
      exact ⟨r', by simp [removeAllItemsLoop, h0, hr'], hz⟩

/-- C1 (amended): whenever each deletion click strictly reduces
`getCartItemCount`, the `removeAllItems` loop terminates — within at most
the starting item count many iterations — and ends with
`getCartItemCount == 0`. (The no-guard counterexample shows the unamended
guard clause false.) -/
theorem removeAllItems_terminates_of_decreasing (del : List CartRow → List CartRow)
    (hdel : ∀ rows, 0 < getCartItemCount rows →
      getCartItemCount (del rows) < getCartItemCount rows)
    (rows : List CartRow) :
    ∃ r', removeAllItemsLoop del (getCartItemCount rows) rows = some r' ∧
      getCartItemCount r' = 0 :=
  removeAllItemsLoop_of_le del hdel (getCartItemCount rows) rows (Nat.le_refl _)

theorem getCartItemCount_le_length (rows : List CartRow) :
    getCartItemCount rows ≤ rows.length := by
  simp only [getCartItemCount]
  split_ifs <;> omega

theorem tail_getCartItemCount_lt (rows : List CartRow)
    (h : 0 < getCartItemCount rows) :
    getCartItemCount rows.tail < getCartItemCount rows := by
  cases rows with
  | nil => simp [getCartItemCount] at h
  | cons r t =>
    have hle : getCartItemCount t ≤ t.length := getCartItemCount_le_length t
    have hcnt : getCartItemCount (r :: t) = t.length + 1 := by
      simp only [getCartItemCount, List.length_cons] at h ⊢
      split_ifs at h ⊢ <;> omega
    rw [List.tail_cons, hcnt]
    omega

/-- Witness for the amended C1 theorem: with the deletion semantics that
removes the first row, the loop empties the concrete two-item cart. -/
theorem removeAllItems_terminates_witness :
    (∀ rows : List CartRow, 0 < getCartItemCount rows →
      getCartItemCount rows.tail < getCartItemCount rows) ∧
    ∃ r', removeAllItemsLoop List.tail (getCartItemCount twoItemCart) twoItemCart = some r' ∧
      getCartItemCount r' = 0 :=
  ⟨tail_getCartItemCount_lt,
    removeAllItems_terminates_of_decreasing List.tail tail_getCartItemCount_lt twoItemCart⟩

/-! ## Price parsing and totals (claim C3)

`calculateExpectedTotal` does
`parseFloat(item.price.replace(/[^\d.]/g, ''))` and sums with `reduce`;
`verifyTotalPrice` parses the displayed total the same way and compares
with `Math.abs(expected - actual) < 0.01`. Parsing is modelled into `ℚ`,
with `none` playing the role of NaN (NaN-propagating addition, and every
NaN comparison false, as in JavaScript). -/

/-- Model of `s.replace(/[^\d.]/g, '')`: keep only digits and dots. -/
def stripToPriceChars (s : String) : List Char :=
  s.toList.filter (fun c => c.isDigit || c == '.')

/-- Numeric value of a digit string, most significant digit first. -/
def digitsToNat (l : List Char) : Nat :=
  l.foldl (fun a c => 10 * a + (c.toNat - '0'.toNat)) 0

/-- Model of JavaScript `parseFloat` on a digits-and-dots character list
(the only inputs it receives here, always applied after the strip): an
optional integer part, then optionally a dot and a fraction part, stopping
at the first character that cannot extend the number; `none` is NaN (no
leading number at all). -/
def parseFloatQ (l : List Char) : Option ℚ :=
  let intPart := l.takeWhile Char.isDigit
  let rest := l.drop intPart.length
  match rest with
  | '.' :: r =>
    let fracPart := r.takeWhile Char.isDigit
    if intPart.isEmpty && fracPart.isEmpty then none
    else some ((digitsToNat intPart : ℚ) + (digitsToNat fracPart : ℚ) / (10 : ℚ) ^ fracPart.length)
  | _ => if intPart.isEmpty then none else some ((digitsToNat intPart : ℚ))

/-- The parsed numeric value of a price string: strip, then `parseFloat`. -/
def parsePrice (s : String) : Option ℚ := parseFloatQ (stripToPriceChars s)

/-- NaN-propagating addition of JavaScript numbers. -/
def qAdd : Option ℚ → Option ℚ → Option ℚ
  | some a, some b => some (a + b)
  | _, _ => none

/-- Embedding of `CartPage.calculateExpectedTotal`:
`items.reduce((total, item) => total + parseFloat(strip(item.price)), 0)`. -/
def calculateExpectedTotal (items : List CartItem) : Option ℚ :=
  items.foldl (fun total item => qAdd total (parsePrice item.price)) (some 0)

/-- Embedding of `CartPage.verifyTotalPrice`:
`Math.abs(expectedTotal - actualTotal) < 0.01`, where a NaN on either side
makes the comparison false. -/
def verifyTotalPrice (items : List CartItem) (totalText : String) : Bool :=
  match calculateExpectedTotal items, parsePrice totalText with
  | some expectedTotal, some actualTotal => decide (|expectedTotal - actualTotal| < 1 / 100)
  | _, _ => false

theorem calculateExpectedTotal_foldl (items : List CartItem) (a : ℚ)
    (h : ∀ it ∈ items, (parsePrice it.price).isSome = true) :
    items.foldl (fun total item => qAdd total (parsePrice item.price)) (some a) =
      some (a + (items.map (fun it => (parsePrice it.price).getD 0)).sum) := by
  induction items generalizing a with
  | nil => simp
  | cons x xs ih =>
    have hx : (parsePrice x.price).isSome = true := h x (by simp)
    obtain ⟨qx, hqx⟩ := Option.isSome_iff_exists.mp hx
    rw [List.foldl_cons, hqx]
    rw [show qAdd (some a) (some qx) = some (a + qx) from rfl]
    rw [ih (a + qx) (fun it hit => h it (by simp [hit]))]
    simp [hqx, add_assoc]

/-- C3: for every cart whose lines have well-formed (parseable) price
strings, `calculateExpectedTotal()` is the sum over all lines of the price
parsed after stripping every non-digit, non-dot character, and
`verifyTotalPrice()` returns true iff the displayed total parses the same
way to a number whose absolute difference from that sum is below the
tolerance `0.01`. -/
theorem calculateExpectedTotal_spec (items : List CartItem) (totalText : String)
    (h : ∀ it ∈ items, (parsePrice it.price).isSome = true) :
    calculateExpectedTotal items =
      some ((items.map (fun it => (parsePrice it.price).getD 0)).sum) ∧
    (verifyTotalPrice items totalText = true ↔
      ∃ actualTotal, parsePrice totalText = some actualTotal ∧
        |(items.map (fun it => (parsePrice it.price).getD 0)).sum - actualTotal| < 1 / 100) := by
  have h1 : calculateExpectedTotal items =
      some ((items.map (fun it => (parsePrice it.price).getD 0)).sum) := by
    simpa using calculateExpectedTotal_foldl items 0 h
  refine ⟨h1, ?_⟩
  unfold verifyTotalPrice
  rw [h1]
  cases hp : parsePrice totalText with
  | none => simp
  | some b => simp

/-- A concrete two-line cart as `getCartItems` would return it. -/
def demoItems : List CartItem := [⟨"Samsung galaxy s6", "360"⟩, ⟨"Nokia lumia 1520", "820"⟩]

/-- Witness for the C3 theorem at a concrete two-line cart and displayed
total. -/
theorem calculateExpectedTotal_spec_witness :
    (∀ it ∈ demoItems, (parsePrice it.price).isSome = true) ∧
    (calculateExpectedTotal demoItems =
      some ((demoItems.map (fun it => (parsePrice it.price).getD 0)).sum) ∧
    (verifyTotalPrice demoItems "1180" = true ↔
      ∃ actualTotal, parsePrice "1180" = some actualTotal ∧
        |(demoItems.map (fun it => (parsePrice it.price).getD 0)).sum - actualTotal| < 1 / 100)) :=
  ⟨by decide, calculateExpectedTotal_spec demoItems "1180" (by decide)⟩

/-! ## Registration dialog classification (`AuthenticationPage`, claim C4)

`signUp` captures the one-shot dialog text, computes
`isSuccess = alertMessage.includes('Sign up successful')`, asserts the
modal hidden only on the success path, and returns the boolean;
`attemptSignUpWithExistingUser` captures the dialog text and returns it
as-is, with no classification and no throwing. Both are modelled as
functions of the captured dialog text (and, for `signUp`, of whether the
modal is still visible after the submit). -/

/-- The fixed success substring of the registration dialog. -/
def signUpSuccessText : String := "Sign up successful"

/-- Embedding of `AuthenticationPage.signUp` from the captured dialog text
on: classify, and on success assert that the sign-up modal closed. -/
def signUp (dialogText : String) (modalVisibleAfterSubmit : Bool) : Except DriverError Bool :=
  let isSuccess := jsIncludes dialogText signUpSuccessText
  if isSuccess then
    match expectToBeHidden modalVisibleAfterSubmit with
    | .error e => .error e
    | .ok _ => .ok isSuccess
  else .ok isSuccess

/-- Embedding of `AuthenticationPage.attemptSignUpWithExistingUser` from
the captured dialog text on: the dialog text is returned as-is, whatever it
says. -/
def attemptSignUpWithExistingUser (dialogText : String) : Except DriverError String :=
  .ok dialogText

/-- C4: the sign-up outcome is classified as success exactly when the
dialog text contains the fixed success substring; on any other text the
call returns normally — `signUp` with the `false` classification, and
`attemptSignUpWithExistingUser` with the rejection dialog text as-is —
rather than throwing. -/
theorem register_dialog_classification (dialogText : String) (modalVisibleAfterSubmit : Bool) :
    (jsIncludes dialogText signUpSuccessText = true ↔ SubstrOf signUpSuccessText dialogText) ∧
    (signUp dialogText modalVisibleAfterSubmit = .ok false ↔
      ¬ SubstrOf signUpSuccessText dialogText) ∧
    attemptSignUpWithExistingUser dialogText = .ok dialogText := by
  refine ⟨jsIncludes_iff _ _, ?_, rfl⟩
  by_cases hs : SubstrOf signUpSuccessText dialogText
  · have hb : jsIncludes dialogText signUpSuccessText = true := (jsIncludes_iff _ _).mpr hs
    simp only [signUp, hb, if_true]
    cases modalVisibleAfterSubmit <;> simp [expectToBeHidden, hs]
  · have hb : jsIncludes dialogText signUpSuccessText = false := by
      cases hjs : jsIncludes dialogText signUpSuccessText with
      | false => rfl
      | true => exact absurd ((jsIncludes_iff _ _).mp hjs) hs
    simp [signUp, hb, hs]

/-! ## Session state, logout and logged-in probes (claims C5 and C8)

The relevant navigation landmarks of one browser session: the logout link
(`#logout2`), the welcome message (`#nameofuser`) and the login link
(`#login2`). The remote application's response to clicking the logout link
is external, so it is a parameter `click`. -/

/-- Visibility of the session landmarks in the rendered page. -/
structure SessionDom where
  logoutVisible : Bool
  welcomeVisible : Bool
  loginVisible : Bool
deriving DecidableEq

/-- Embedding of `HomePage.isUserLoggedIn`: a bounded
`waitForSelector(logoutLink, { timeout: 2000 })` probe inside
`try/catch` — a timeout is swallowed and reported as `false`. -/
def isUserLoggedIn (dom : SessionDom) : Bool :=
  match waitForSelector dom.logoutVisible with
  | .ok _ => true
  | .error _ => false

/-- Embedding of `AuthenticationPage.isLoggedIn`: a bounded
`expect(welcomeMessage).toBeVisible({ timeout: 2000 })` probe inside
`try/catch` — a timeout is swallowed and reported as `false`. -/
def isLoggedIn (dom : SessionDom) : Bool :=
  match expectToBeVisible dom.welcomeVisible with
  | .ok _ => true
  | .error _ => false

/-- Embedding of `AuthenticationPage.logout`: assert the logout button
visible (throws when it is not), click it, then assert the welcome message
hidden and the login link visible on the resulting page. -/
def authLogout (click : SessionDom → SessionDom) (dom : SessionDom) :
    Except DriverError SessionDom :=
  match expectToBeVisible dom.logoutVisible with
  | .error e => .error e
  | .ok _ =>
    let dom' := click dom
    match expectToBeHidden dom'.welcomeVisible with
    | .error e => .error e
    | .ok _ =>
      match expectToBeVisible dom'.loginVisible with
      | .error e => .error e
      | .ok _ => .ok dom'

/-- Embedding of `HomePage.logout`: only if `isUserLoggedIn()` does it
click the logout link and wait for the login link; otherwise it returns
normally having done nothing. -/
def homeLogout (click : SessionDom → SessionDom) (dom : SessionDom) :
    Except DriverError SessionDom :=
  if isUserLoggedIn dom then
    let dom' := click dom
    match waitForSelector dom'.loginVisible with
    | .error e => .error e
    | .ok _ => .ok dom'
  else .ok dom

/-- A logged-out session: login link shown, no logout link, no welcome
message. -/
def loggedOutDom : SessionDom := ⟨false, false, true⟩

/-- C5 counterexample: calling `HomePage.logout()` while logged out is a
silent no-op — it returns normally with the state unchanged instead of
failing with a precondition error. -/
theorem homeLogout_silent_noop_counterexample :
    homeLogout (fun d => d) loggedOutDom = .ok loggedOutDom ∧
    isUserLoggedIn loggedOutDom = false :=
  ⟨rfl, rfl⟩

/-- C5 (amended): `AuthenticationPage.logout()` fails (its logout-button
visibility assertion throws, realising the PreconditionFailed policy) when
called while logged out, but `HomePage.logout()` first probes
`isUserLoggedIn()` and silently no-ops, returning normally with the state
unchanged. -/
theorem logout_logged_out_behaviour (click : SessionDom → SessionDom) (dom : SessionDom)
    (h : dom.logoutVisible = false) :
    authLogout click dom = .error .timeout ∧ homeLogout click dom = .ok dom := by
  constructor
  · simp [authLogout, expectToBeVisible, h]
  · simp [homeLogout, isUserLoggedIn, waitForSelector, h]

/-- Witness for the amended C5 theorem at the concrete logged-out state. -/
theorem logout_logged_out_behaviour_witness :
    loggedOutDom.logoutVisible = false ∧
    (authLogout (fun d => d) loggedOutDom = .error .timeout ∧
      homeLogout (fun d => d) loggedOutDom = .ok loggedOutDom) :=
  ⟨rfl, logout_logged_out_behaviour (fun d => d) loggedOutDom rfl⟩

/-- C8: both logged-in probes are total boolean-valued reads: they return
`true` exactly when the bounded wait for their landmark succeeds and
`false` exactly when that wait times out — the timeout error is consumed,
never propagated. -/
theorem isLoggedIn_bounded_probe (dom : SessionDom) :
    (isUserLoggedIn dom = true ↔ waitForSelector dom.logoutVisible = .ok ()) ∧
    (isUserLoggedIn dom = false ↔ waitForSelector dom.logoutVisible = .error .timeout) ∧
    (isLoggedIn dom = true ↔ expectToBeVisible dom.welcomeVisible = .ok ()) ∧
    (isLoggedIn dom = false ↔ expectToBeVisible dom.welcomeVisible = .error .timeout) := by
  obtain ⟨lo, we, li⟩ := dom
  cases lo <;> cases we <;>
    simp [isUserLoggedIn, isLoggedIn, waitForSelector, expectToBeVisible]

/-! ## `CartPage.removeItemByName` (claims C6 and C10)

The source reads the items, finds `items.findIndex(item => item.name ===
itemName)`, throws a not-found `Error` when the index is negative, and
otherwise clicks the delete affordance of that row. The remote side —
clicking row `i`'s delete affordance removes row `i` from the cart table —
is modelled from the spec (the remote application is not part of this
repository). The embedding also returns the list of delete-affordance
indices clicked, so that "no delete click is issued" is a provable
statement. -/

/-- Model of JavaScript `Array.prototype.findIndex`: index of the first
element satisfying `p`, `none` when there is none. -/
def findIndexJs {α : Type} (p : α → Bool) : List α → Option Nat
  | [] => none
  | a :: t => if p a then some 0 else (findIndexJs p t).map (· + 1)

/-- Embedding of `CartPage.removeItemByName`: the resulting remote rows (or
the thrown not-found error), paired with the delete clicks issued. -/
def removeItemByName (rows : List CartRow) (itemName : String) :
    Except DriverError (List CartRow) × List Nat :=
  let items := getCartItems rows
  match findIndexJs (fun item => item.name == itemName) items with
  | some itemIndex => (.ok (rows.eraseIdx itemIndex), [itemIndex])
  | none => (.error (.notFound itemName), [])

theorem findIndexJs_eq_none_iff {α : Type} (p : α → Bool) (l : List α) :
    findIndexJs p l = none ↔ ∀ a ∈ l, p a = false := by
  induction l with
  | nil => simp [findIndexJs]
  | cons a t ih => by_cases hp : p a <;> simp [findIndexJs, hp, ih]

theorem findIndexJs_eq_some {α : Type} (p : α → Bool) (l : List α) (i : Nat)
    (h : findIndexJs p l = some i) :
    ∃ hi : i < l.length, p (l.get ⟨i, hi⟩) = true := by
  induction l generalizing i with
  | nil => simp [findIndexJs] at h
  | cons a t ih =>
    by_cases hp : p a
    · rw [show findIndexJs p (a :: t) = some 0 by simp [findIndexJs, hp]] at h
      obtain rfl : (0 : Nat) = i := Option.some.inj h
      exact ⟨by simp, by simpa using hp⟩
    · rw [show findIndexJs p (a :: t) = (findIndexJs p t).map (· + 1) by
        simp [findIndexJs, hp]] at h
      rw [Option.map_eq_some'] at h
      obtain ⟨j, hj, hji⟩ := h
      obtain ⟨hjl, hpj⟩ := ih j hj
      subst hji
      exact ⟨by simpa using Nat.succ_lt_succ hjl, by simpa using hpj⟩

theorem map_eraseIdx {α β : Type} (f : α → β) (l : List α) (i : Nat) :
    (l.eraseIdx i).map f = (l.map f).eraseIdx i := by
  induction l generalizing i with
  | nil => simp
  | cons a t ih =>
    cases i with
    | zero => simp
    | succ n => simp [List.eraseIdx_cons_succ, ih]

theorem countP_eraseIdx {α : Type} (p : α → Bool) (l : List α) (i : Nat)
    (hi : i < l.length) (hp : p (l.get ⟨i, hi⟩) = true) :
    (l.eraseIdx i).countP p + 1 = l.countP p := by
  induction l generalizing i with
  | nil => simp at hi
  | cons a t ih =>
    cases i with
    | zero =>
      simp only [List.get] at hp
      simp [List.countP_cons, hp]
    | succ n =>
      have hn : n < t.length := by simpa using hi
      have hrec := ih n hn (by simpa using hp)
      by_cases hpa : p a <;>
        simp [List.eraseIdx_cons_succ, List.countP_cons, hpa] <;> omega

/-- A cart row whose rendered text is not blank (a real product row). -/
def rowNonBlank (r : CartRow) : Bool := !(jsTextBlank r.text)

theorem getCartItemCount_eq_length_of_nonblank (rows : List CartRow)
    (hb : ∀ r ∈ rows, rowNonBlank r = true) :
    getCartItemCount rows = rows.length := by
  cases rows with
  | nil => rfl
  | cons r t =>
    have hr : rowNonBlank r = true := hb r (by simp)
    have hblank : jsTextBlank r.text = false := by
      simpa [rowNonBlank] using hr
    simp [getCartItemCount, firstRowText, hblank]

/-- A cart holding the same product name on two distinct rows (the data
model allows duplicates by name). -/
def dupCart : List CartRow := [samsungRow, samsungRow]

/-- C6 counterexample: on a cart with a duplicated name, `removeByName`
deletes only the first matching row, `itemCount()` drops by exactly one, yet
the name still appears in `items()` afterwards — refuting "that name no
longer appears in items()". -/
theorem removeItemByName_duplicate_counterexample :
    (removeItemByName dupCart "Samsung galaxy s6").1 = .ok [samsungRow] ∧
    getCartItemCount [samsungRow] + 1 = getCartItemCount dupCart ∧
    ((getCartItems [samsungRow]).map CartItem.name).contains "Samsung galaxy s6" = true := by
  refine ⟨?_, by decide, by decide⟩
  rfl

/-- C6 (amended): `removeByName(name)` raises the not-found error iff no
cart line's name equals `name` exactly, and then issues no delete click;
when a match exists it clicks exactly the first matching row's delete
affordance, after which (for a cart of real, non-blank rows) `itemCount()`
is exactly one less, and the name no longer appears in `items()` provided
the name occurred on exactly one line. -/
theorem removeItemByName_spec (rows : List CartRow) (itemName : String)
    (hb : ∀ r ∈ rows, rowNonBlank r = true) :
    ((removeItemByName rows itemName).1 = .error (.notFound itemName) ∧
        (removeItemByName rows itemName).2 = [] ↔
      ∀ it ∈ getCartItems rows, it.name ≠ itemName) ∧
    (∀ i, findIndexJs (fun item => item.name == itemName) (getCartItems rows) = some i →
      (removeItemByName rows itemName).1 = .ok (rows.eraseIdx i) ∧
      (removeItemByName rows itemName).2 = [i] ∧
      getCartItemCount (rows.eraseIdx i) + 1 = getCartItemCount rows ∧
      ((getCartItems rows).countP (fun item => item.name == itemName) = 1 →
        ∀ it ∈ getCartItems (rows.eraseIdx i), it.name ≠ itemName)) := by
  constructor
  · cases hfind : findIndexJs (fun item => item.name == itemName) (getCartItems rows) with
    | none =>
      have hnone := (findIndexJs_eq_none_iff _ _).mp hfind
      have hres : removeItemByName rows itemName = (.error (.notFound itemName), []) := by
        simp [removeItemByName, hfind]
      rw [hres]
      constructor
      · intro _ it hit
        simpa using hnone it hit
      · intro _
        exact ⟨rfl, rfl⟩
    | some i =>
      obtain ⟨hi, hp⟩ := findIndexJs_eq_some _ _ i hfind
      have hres : removeItemByName rows itemName = (.ok (rows.eraseIdx i), [i]) := by
        simp [removeItemByName, hfind]
      rw [hres]
      constructor
      · rintro ⟨hcontra, -⟩
        exact absurd hcontra (by simp)
      · intro hall
        have hmem := List.get_mem (getCartItems rows) i hi
        have := hall _ hmem
        simp only [beq_iff_eq] at hp
        exact absurd hp this
  · intro i hfind
    obtain ⟨hi, hp⟩ := findIndexJs_eq_some _ _ i hfind
    have hlen : (getCartItems rows).length = rows.length := by
      simp [getCartItems]
    have hirows : i < rows.length := hlen ▸ hi
    have hb' : ∀ r ∈ rows.eraseIdx i, rowNonBlank r = true :=
      fun r hr => hb r ((List.eraseIdx_sublist rows i).subset hr)
    refine ⟨by simp [removeItemByName, hfind], by simp [removeItemByName, hfind], ?_, ?_⟩
    · rw [getCartItemCount_eq_length_of_nonblank rows hb,
        getCartItemCount_eq_length_of_nonblank (rows.eraseIdx i) hb',
        List.length_eraseIdx_of_lt hirows]
      omega
    · intro hcount it hit
      have herase := countP_eraseIdx (fun item => item.name == itemName)
        (getCartItems rows) i hi hp
      rw [hcount] at herase
      have hzero : ((getCartItems rows).eraseIdx i).countP
          (fun item => item.name == itemName) = 0 := by omega
      have hnone := List.countP_eq_zero.mp hzero
      rw [getCartItems, map_eraseIdx] at hit
      intro hname
      exact hnone it hit (by simp [hname])

/-- Witness for the amended C6 theorem at a concrete two-item cart. -/
theorem removeItemByName_spec_witness :
    (∀ r ∈ twoItemCart, rowNonBlank r = true) ∧
    (((removeItemByName twoItemCart "Nokia lumia 1520").1 =
          .error (.notFound "Nokia lumia 1520") ∧
        (removeItemByName twoItemCart "Nokia lumia 1520").2 = [] ↔
      ∀ it ∈ getCartItems twoItemCart, it.name ≠ "Nokia lumia 1520") ∧
    (∀ i, findIndexJs (fun item => item.name == "Nokia lumia 1520")
        (getCartItems twoItemCart) = some i →
      (removeItemByName twoItemCart "Nokia lumia 1520").1 = .ok (twoItemCart.eraseIdx i) ∧
      (removeItemByName twoItemCart "Nokia lumia 1520").2 = [i] ∧
      getCartItemCount (twoItemCart.eraseIdx i) + 1 = getCartItemCount twoItemCart ∧
      ((getCartItems twoItemCart).countP (fun item => item.name == "Nokia lumia 1520") = 1 →
        ∀ it ∈ getCartItems (twoItemCart.eraseIdx i), it.name ≠ "Nokia lumia 1520"))) :=
  ⟨by decide, removeItemByName_spec twoItemCart "Nokia lumia 1520" (by decide)⟩

/-! ## `CartPage.getCartItems` re-reads (claim C9) -/

/-- Two successive `getCartItems()` calls against the same rendered cart
state: the page object holds no cache, so each call re-reads every row from
the driver handle. -/
def readItemsTwice (rows : List CartRow) : List CartItem × List CartItem :=
  (getCartItems rows, getCartItems rows)

/-- C9: two `items()` reads of the same rendered cart state with no
intervening mutation return equal sequences — same length, and the same
name and price at every index. -/
theorem getCartItems_idempotent (rows : List CartRow) :
    (readItemsTwice rows).1.length = (readItemsTwice rows).2.length ∧
    ((readItemsTwice rows).1.zip (readItemsTwice rows).2).all
      (fun p => p.1.name == p.2.name && p.1.price == p.2.price) = true := by
  refine ⟨rfl, ?_⟩
  have hall : ∀ l : List CartItem,
      (l.zip l).all (fun p => p.1.name == p.2.name && p.1.price == p.2.price) = true := by
    intro l
    induction l with
    | nil => rfl
    | cons x xs ih => simp [List.zip_cons_cons, ih]
  exact hall _

/-! ## `CartPage.verifyItemInCart` (claim C10) -/

/-- Embedding of `CartPage.verifyItemInCart`:
`items.some(item => item.name.includes(itemName))`. -/
def verifyItemInCart (rows : List CartRow) (itemName : String) : Bool :=
  (getCartItems rows).any (fun item => jsIncludes item.name itemName)

/-- C10: `verifyItemInCart(s)` is true iff some cart line's name contains
`s` as a substring — so the strict-substring query "Samsung" of the
one-item Samsung galaxy s6 cart is reported present, while
`removeItemByName` with the same query fails with not-found because it
matches names only by exact equality. -/
theorem verifyItemInCart_substring_match (rows : List CartRow) (itemName : String) :
    (verifyItemInCart rows itemName = true ↔
      ∃ item ∈ getCartItems rows, SubstrOf itemName item.name) ∧
    (verifyItemInCart oneItemCart "Samsung" = true ∧
      (removeItemByName oneItemCart "Samsung").1 = .error (.notFound "Samsung")) := by
  refine ⟨?_, by decide, rfl⟩
  simp [verifyItemInCart, List.any_eq_true, jsIncludes_iff]

/-! ## Contact form validation (`ContactPage`, claim C7) -/

/-- The three contact form fields as read by `inputValue()`. -/
structure ContactFormState where
  email : String
  name : String
  message : String
deriving DecidableEq

/-- Model of JavaScript `s.includes('@')` for the single-character email
format check: membership of the character. -/
def jsContainsChar (s : String) (c : Char) : Bool := s.toList.contains c

/-- Embedding of `ContactPage.verifyFormValidation`: sequentially append
one error per violated rule (empty email, empty name, empty message, and —
only for a non-empty email — missing `@`), clearing the valid flag each
time; returns `(isValid, errors)`. -/
def verifyFormValidation (form : ContactFormState) : Bool × List String :=
  let start : List String × Bool := ([], true)
  let step1 : List String × Bool :=
    if form.email == "" then (start.1 ++ ["Email is required"], false) else start
  let step2 : List String × Bool :=
    if form.name == "" then (step1.1 ++ ["Name is required"], false) else step1
  let step3 : List String × Bool :=
    if form.message == "" then (step2.1 ++ ["Message is required"], false) else step2
  let step4 : List String × Bool :=
    if !(form.email == "") && !(jsContainsChar form.email '@') then
      (step3.1 ++ ["Invalid email format"], false)
    else step3
  (step4.2, step4.1)

/-- The enumeration of violated rules as claim C7 words it: one entry per
violated rule, the email-format rule checked only on a non-empty email. -/
def violatedRuleErrors (form : ContactFormState) : List String :=
  (if form.email = "" then ["Email is required"] else []) ++
  (if form.name = "" then ["Name is required"] else []) ++
  (if form.message = "" then ["Message is required"] else []) ++
  (if form.email ≠ "" ∧ jsContainsChar form.email '@' = false then
    ["Invalid email format"] else [])

/-- C7: `validate()` returns valid iff all three fields are non-empty and
the email contains an `@`; the error list enumerates every violated rule
without short-circuiting — in particular, with all three fields empty it
returns exactly the three required-field errors. -/
theorem verifyFormValidation_spec (form : ContactFormState) :
    ((verifyFormValidation form).1 = true ↔
      form.email ≠ "" ∧ form.name ≠ "" ∧ form.message ≠ "" ∧
        jsContainsChar form.email '@' = true) ∧
    (verifyFormValidation form).2 = violatedRuleErrors form ∧
    verifyFormValidation ⟨"", "", ""⟩ =
      (false, ["Email is required", "Name is required", "Message is required"]) := by
  obtain ⟨em, nm, ms⟩ := form
  refine ⟨?_, ?_, by decide⟩ <;>
    by_cases he : em = "" <;> by_cases hn : nm = "" <;> by_cases hm : ms = "" <;>
      by_cases ha : jsContainsChar em '@' = true <;>
        simp_all [verifyFormValidation, violatedRuleErrors]
